import Mathlib

/-!
# Trace recorder of quic-tracker (`trace.go`)

A shallow embedding of `trace.go`: the `Trace` and `TracePacket` records, the
constructor `NewTrace`, and the methods `AddPcap`, `MarkError`, `AttachTo` and
`Complete`, followed by theorems about them.

Modelling conventions.

* `unsafe.Pointer` values are only ever compared for equality, so they are
  natural numbers (addresses).
* `[]byte` is a list of byte values; the nil slice and the empty slice are both
  `[]`.
* `map[string]interface{}` is `Option` of an association list: `none` is the
  nil map (reads succeed, a write panics), `some m` a map made with `make`.
* A Go panic does not roll back earlier writes, so a method that can panic
  returns the receiver's state at the point where it stopped together with an
  `Outcome`.
* `uint8`, `uint64`, `int` and `int64` fields are only stored, never computed
  with, except the division of the clock reading by `1e6`, which cannot
  overflow; they are `Nat` and `Int`.
* Ambient inputs (the clock, the output of the `git` command, the result of
  `StopPcapCapture`) are explicit arguments.
* The hooks installed by `AttachTo` are closures over the receiver pointer.
  Traces therefore live in a store indexed by address (`World.traces`), and a
  hook is a function on the `World`.
-/

namespace QuicTracker

/-! ## Data model -/

/-- Address held by an `unsafe.Pointer`; the recorder only compares it. -/
abbrev UnsafePointer := Nat

/-- Contents of a `[]byte`. -/
abbrev Bytes := List Nat

/-- Value of Go type `error` when it is not nil. -/
abbrev GoError := String

/-- Go: `type Direction string`. -/
abbrev Direction := String

/-- Go: `const ToServer Direction = "to_server"`. -/
def ToServer : Direction := "to_server"

/-- Go: `const ToClient Direction = "to_client"`. -/
def ToClient : Direction := "to_client"

/-- Go: `type TracePacket struct`. -/
structure TracePacket where
  Direction : Direction
  Timestamp : Int
  Data : Bytes
  IsOfInterest : Bool
  Pointer : UnsafePointer
deriving DecidableEq, Repr

/-- Dynamic value stored in an `interface{}` slot of the results map. -/
inductive Value where
  | str (s : String)
  | int (n : Int)
  | bool (b : Bool)
  | null
deriving DecidableEq, Repr

/-- Entries of a non-nil `map[string]interface{}`. -/
abbrev GoMap := List (String × Value)

/-- Go: `m[key]` read. -/
def GoMap.lookup (m : GoMap) (key : String) : Option Value :=
  match m with
  | [] => none
  | (k, v) :: rest => if k = key then some v else GoMap.lookup rest key

/-- Go: `m[key] = v` on a non-nil map: overwrite the entry of `key`, or add one. -/
def GoMap.store (m : GoMap) (key : String) (v : Value) : GoMap :=
  match m with
  | [] => [(key, v)]
  | (k, w) :: rest => if k = key then (k, v) :: rest else (k, w) :: GoMap.store rest key v

/-- Go: `type Trace struct`. `Results = none` is the nil map. -/
structure Trace where
  Commit : String
  Scenario : String
  ScenarioVersion : Int
  Host : String
  Ip : String
  Results : Option GoMap
  StartedAt : Int
  Duration : Nat
  ErrorCode : Nat
  Stream : List TracePacket
  Pcap : Bytes
  DecryptedPcap : Bytes
  ClientRandom : Bytes
  ExporterSecret : Bytes
  EarlyExporterSecret : Bytes
deriving DecidableEq, Repr

/-- Go zero value `Trace{}`: every field zero, `Results` the nil map. -/
def Trace.zero : Trace :=
  { Commit := "", Scenario := "", ScenarioVersion := 0, Host := "", Ip := "",
    Results := none, StartedAt := 0, Duration := 0, ErrorCode := 0, Stream := [],
    Pcap := [], DecryptedPcap := [], ClientRandom := [], ExporterSecret := [],
    EarlyExporterSecret := [] }

/-- How a call ended. -/
inductive Outcome where
  | returned
  | panicked
deriving DecidableEq, Repr

/-- A non-nil value of interface `Packet`; only its method `Pointer()` is used. -/
structure Packet where
  Pointer : UnsafePointer
deriving DecidableEq, Repr

/-! ## GitCommit and NewTrace -/

/-- Go: `unicode.IsSpace`, the set `strings.TrimSpace` removes. -/
def isSpace (c : Char) : Bool :=
  let n := c.toNat
  (9 ≤ n && n ≤ 13) || n == 0x20 || n == 0x85 || n == 0xA0 || n == 0x1680 ||
  (0x2000 ≤ n && n ≤ 0x200A) || n == 0x2028 || n == 0x2029 || n == 0x202F ||
  n == 0x205F || n == 0x3000

/-- Go: `strings.TrimSpace`: drop leading and trailing white space. -/
def TrimSpace (s : String) : String :=
  String.mk ((s.data.dropWhile isSpace).reverse.dropWhile isSpace).reverse

/-- Go: `func GitCommit() string`. `cmdOut`, `err` are what
`exec.Command("git", "rev-parse", "--verify", "HEAD").Output()` returned;
`none` is the panic. -/
def GitCommit (cmdOut : String) (err : Option GoError) : Option String :=
  match err with
  | some _ => none
  | none => some (TrimSpace cmdOut)

/-- Go: `func NewTrace(scenarioName string, scenarioVersion int, host string) *Trace`.
`unixNow` is `time.Now().Unix()`; `cmdOut`, `err` feed `GitCommit`. Fields the
composite literal does not name keep their zero value. -/
def NewTrace (scenarioName : String) (scenarioVersion : Int) (host : String)
    (unixNow : Int) (cmdOut : String) (err : Option GoError) : Option Trace :=
  match GitCommit cmdOut err with
  | none => none
  | some commit =>
    some { Trace.zero with
      Scenario := scenarioName
      ScenarioVersion := scenarioVersion
      Commit := commit
      Host := host
      StartedAt := unixNow
      Results := some [] }

/-! ## AddPcap -/

/-- Go: `func (t *Trace) AddPcap(conn *Connection, cmd *exec.Cmd) error`.
`content`, `err` are the two values `StopPcapCapture(conn, cmd)` returned. The
result is the receiver afterwards and the returned error. -/
def AddPcap (t : Trace) (content : Bytes) (err : Option GoError) : Trace × Option GoError :=
  match err with
  | some e => (t, some e)
  | none => ({ t with Pcap := content }, err)

/-! ## MarkError -/

/-- The `for _, tp := range t.Stream` loop of `MarkError`. `stream` is
`t.Stream`, `rest` the elements still to visit. Each iteration copies the
element into the range variable `tp`; the assignment `tp.IsOfInterest = true`
writes that variable. The result is `t.Stream` when the loop is left and the
last value of `tp` if the loop returned early. -/
def MarkError.loop (key : UnsafePointer) (stream : List TracePacket) :
    List TracePacket → List TracePacket × Option TracePacket
  | [] => (stream, none)
  | e :: rest =>
    let tp := e
    if tp.Pointer = key then
      let tp := { tp with IsOfInterest := true }
      (stream, some tp)
    else
      MarkError.loop key stream rest

/-- Second half of `MarkError`, from `if packet == nil` on. -/
def MarkError.annotate (t : Trace) (packet : Option Packet) : Trace × Outcome :=
  match packet with
  | none => (t, Outcome.returned)
  | some p => ({ t with Stream := (MarkError.loop p.Pointer t.Stream t.Stream).1 }, Outcome.returned)

/-- Go: `func (t *Trace) MarkError(error uint8, message string, packet Packet)`.
`packet = none` is the nil interface. Writing `t.Results["error"]` on a nil map
panics, after `ErrorCode` has been written. -/
def MarkError (t : Trace) (error : Nat) (message : String) (packet : Option Packet) :
    Trace × Outcome :=
  let t := { t with ErrorCode := error }
  if message ≠ "" then
    match t.Results with
    | none => (t, Outcome.panicked)
    | some m => MarkError.annotate { t with Results := some (m.store "error" (Value.str message)) } packet
  else
    MarkError.annotate t packet

/-! ## Connection, AttachTo and Complete -/

/-- Address of a `Trace` (`*Trace`). -/
abbrev TraceRef := Nat

/-- What the hooks can read and write: the clock and the traces in memory. -/
structure World where
  unixNano : Int
  traces : TraceRef → Trace

/-- Go: `func(data []byte, origin unsafe.Pointer)`, a closure over the world. -/
abbrev PacketHandler := Bytes → UnsafePointer → World → World

/-- The TLS state of a connection; `EarlyExporterSecret` is what the method of
that name returns. -/
structure TlsState where
  EarlyExporterSecret : Bytes

/-- Modelled from the spec: type `Connection` is declared outside `trace.go`.
These are the members `trace.go` uses: two settable hook slots (`none` is a nil
func) and the secrets read by `Complete`. -/
structure Connection where
  ReceivedPacketHandler : Option PacketHandler
  SentPacketHandler : Option PacketHandler
  ClientRandom : Bytes
  ExporterSecret : Bytes
  Tls : TlsState

/-- Body of the closure assigned to `conn.ReceivedPacketHandler`, on the
captured trace. `unixNano` is `time.Now().UnixNano()`; Go integer division
truncates toward zero. -/
def receivedPacket (t : Trace) (unixNano : Int) (data : Bytes) (origin : UnsafePointer) : Trace :=
  { t with Stream := t.Stream ++ [{ Direction := ToClient, Timestamp := unixNano.tdiv 1000000,
                                     Data := data, IsOfInterest := false, Pointer := origin }] }

/-- Body of the closure assigned to `conn.SentPacketHandler`, on the captured trace. -/
def sentPacket (t : Trace) (unixNano : Int) (data : Bytes) (origin : UnsafePointer) : Trace :=
  { t with Stream := t.Stream ++ [{ Direction := ToServer, Timestamp := unixNano.tdiv 1000000,
                                     Data := data, IsOfInterest := false, Pointer := origin }] }

/-- Go: `func (t *Trace) AttachTo(conn *Connection)`: both slots are assigned a
closure that captures the pointer `t`. -/
def AttachTo (t : TraceRef) (conn : Connection) : Connection :=
  { conn with
    ReceivedPacketHandler := some (fun data origin w =>
      { w with traces := Function.update w.traces t (receivedPacket (w.traces t) w.unixNano data origin) })
    SentPacketHandler := some (fun data origin w =>
      { w with traces := Function.update w.traces t (sentPacket (w.traces t) w.unixNano data origin) }) }

/-- Go: `func (t *Trace) Complete(conn *Connection)`. -/
def Complete (t : Trace) (conn : Connection) : Trace :=
  { t with
    ClientRandom := conn.ClientRandom
    ExporterSecret := conn.ExporterSecret
    EarlyExporterSecret := conn.Tls.EarlyExporterSecret }

/-! ## Hook firings and recorder operations -/

/-- Go: `t.Results[key]` read; a nil map and a missing key both give the nil interface. -/
def Trace.result (t : Trace) (key : String) : Option Value :=
  match t.Results with
  | none => none
  | some m => m.lookup key

/-- Which of the two hook slots of the connection is invoked. -/
inductive HookKind where
  | sent
  | received
deriving DecidableEq, Repr

/-- One hook invocation: the slot, the clock reading `time.Now().UnixNano()` at
that moment, and the two arguments of the hook. -/
structure Firing where
  kind : HookKind
  unixNano : Int
  data : Bytes
  origin : UnsafePointer
deriving DecidableEq, Repr

/-- Modelled from the spec: the connection's I/O path, declared outside
`trace.go`, invokes the slot of the matching direction with the payload bytes
and the correlation key; an empty slot does nothing. -/
def Connection.fire (conn : Connection) (f : Firing) (w : World) : World :=
  let w := { w with unixNano := f.unixNano }
  match f.kind with
  | HookKind.sent =>
    match conn.SentPacketHandler with
    | none => w
    | some h => h f.data f.origin w
  | HookKind.received =>
    match conn.ReceivedPacketHandler with
    | none => w
    | some h => h f.data f.origin w

/-- A sequence of hook invocations, in order. -/
def Connection.fireAll (conn : Connection) : List Firing → World → World
  | [], w => w
  | f :: fs, w => Connection.fireAll conn fs (conn.fire f w)

/-- The stream entry the specification prescribes for a firing: direction by
hook, millisecond timestamp, the payload, the key, not of interest. -/
def Firing.entry (f : Firing) : TracePacket :=
  { Direction := match f.kind with
      | HookKind.sent => ToServer
      | HookKind.received => ToClient
    Timestamp := f.unixNano.tdiv 1000000
    Data := f.data
    IsOfInterest := false
    Pointer := f.origin }

/-- The operations that write a trace, with their ambient inputs. -/
inductive Op where
  | sentHook (unixNano : Int) (data : Bytes) (origin : UnsafePointer)
  | receivedHook (unixNano : Int) (data : Bytes) (origin : UnsafePointer)
  | markError (error : Nat) (message : String) (packet : Option Packet)
  | addPcap (content : Bytes) (err : Option GoError)
  | complete (conn : Connection)

/-- The trace after an operation (for a panicking `MarkError`, the trace as the
panic left it). -/
def Op.apply : Op → Trace → Trace
  | Op.sentHook n d o, t => sentPacket t n d o
  | Op.receivedHook n d o, t => receivedPacket t n d o
  | Op.markError e m p, t => (MarkError t e m p).1
  | Op.addPcap c e, t => (AddPcap t c e).1
  | Op.complete conn, t => Complete t conn

/-- Whether the operation is a hook firing. -/
def Op.isHook : Op → Bool
  | Op.sentHook _ _ _ => true
  | Op.receivedHook _ _ _ => true
  | _ => false

/-- Whether the operation is `Complete`. -/
def Op.isComplete : Op → Bool
  | Op.complete _ => true
  | _ => false

/-- The trace after a sequence of operations, applied in order. -/
def Op.applyAll : List Op → Trace → Trace
  | [], t => t
  | op :: ops, t => Op.applyAll ops (op.apply t)

/-- The three secret fields of a trace: client random, exporter secret, early
exporter secret. -/
def Trace.secrets (t : Trace) : Bytes × Bytes × Bytes :=
  (t.ClientRandom, t.ExporterSecret, t.EarlyExporterSecret)

/-! ## Concrete states used in the examples -/

/-- The trace `NewTrace "handshake" 1 "example.org"` returns at epoch second
1700000000 in a checkout at commit `abc123`. -/
def freshTrace : Trace :=
  { Trace.zero with
    Scenario := "handshake", ScenarioVersion := 1, Commit := "abc123", Host := "example.org",
    StartedAt := 1700000000, Results := some [] }

/-- Key `A` of the two-packet scenario. -/
def keyA : UnsafePointer := 10

/-- Key `B` of the two-packet scenario. -/
def keyB : UnsafePointer := 11

/-- A fresh trace after the sent hook fired with key `A` and the received hook
with key `B`. -/
def twoKeyTrace : Trace :=
  receivedPacket (sentPacket freshTrace 5000000 [1, 2] keyA) 7000000 [3] keyB

/-- A connection with no hooks installed and the given secrets. -/
def plainConnection (r x y : Bytes) : Connection :=
  { ReceivedPacketHandler := none, SentPacketHandler := none,
    ClientRandom := r, ExporterSecret := x, Tls := { EarlyExporterSecret := y } }

/-- A world whose every address holds a fresh trace. -/
def freshWorld : World := { unixNano := 0, traces := fun _ => freshTrace }

/-- The firings S, R, S, R, S of the interleaving scenario. -/
def interleaved : List Firing :=
  [ { kind := HookKind.sent, unixNano := 1000000, data := [1], origin := 21 },
    { kind := HookKind.received, unixNano := 2000000, data := [2], origin := 22 },
    { kind := HookKind.sent, unixNano := 3000000, data := [3], origin := 23 },
    { kind := HookKind.received, unixNano := 4000000, data := [4], origin := 24 },
    { kind := HookKind.sent, unixNano := 5000000, data := [5], origin := 25 } ]

/-- A run without `Complete`: two hook firings, a verdict with a message and a
packet, a successful and a failed capture retrieval. -/
def runWithoutComplete : List Op :=
  [ Op.sentHook 1000000 [1] keyA,
    Op.receivedHook 2000000 [2] keyB,
    Op.markError 1 "timeout" (some { Pointer := keyB }),
    Op.addPcap [9, 9] none,
    Op.addPcap [] (some "capture failed") ]

/-- A trace that already carries results of the scenario and a verdict message. -/
def reportedTrace : Trace :=
  { twoKeyTrace with
    Ip := "192.0.2.1", Duration := 42, Pcap := [7], DecryptedPcap := [8],
    ClientRandom := [1], ExporterSecret := [2], EarlyExporterSecret := [3],
    Results := some [("rtt", Value.int 30), ("error", Value.str "old"), ("ok", Value.bool false)] }

/-! ## Auxiliary lemmas -/

theorem GoMap.lookup_store_self (m : GoMap) (key : String) (v : Value) :
    (m.store key v).lookup key = some v := by
  induction m with
  | nil => simp [GoMap.store, GoMap.lookup]
  | cons kv rest ih =>
    obtain ⟨k, w⟩ := kv
    by_cases hk : k = key
    · simp [GoMap.store, GoMap.lookup, hk]
    · simp [GoMap.store, GoMap.lookup, hk, ih]

theorem GoMap.lookup_store_other (m : GoMap) (key other : String) (v : Value) (hne : other ≠ key) :
    (m.store key v).lookup other = m.lookup other := by
  induction m with
  | nil => simp [GoMap.store, GoMap.lookup, Ne.symm hne]
  | cons kv rest ih =>
    obtain ⟨k, w⟩ := kv
    by_cases hk : k = key
    · subst hk
      simp [GoMap.store, GoMap.lookup, Ne.symm hne]
    · by_cases ho : k = other
      · subst ho
        simp [GoMap.store, GoMap.lookup, hk]
      · simp [GoMap.store, GoMap.lookup, hk, ho, ih]

/-- The loop never writes the slice it ranges over. -/
theorem MarkError.loop_stream (key : UnsafePointer) (stream rest : List TracePacket) :
    (MarkError.loop key stream rest).1 = stream := by
  induction rest with
  | nil => rfl
  | cons e rest ih =>
    unfold MarkError.loop
    by_cases h : e.Pointer = key
    · simp [h]
    · simp [h, ih]

/-- Without a matching element the loop runs to the end: the range variable is
never written. -/
theorem MarkError.loop_no_match (key : UnsafePointer) (stream rest : List TracePacket)
    (hno : ∀ e ∈ rest, e.Pointer ≠ key) : (MarkError.loop key stream rest).2 = none := by
  induction rest with
  | nil => rfl
  | cons e rest ih =>
    unfold MarkError.loop
    have h : e.Pointer ≠ key := hno e (List.mem_cons_self _ _)
    simp [h]
    exact ih (fun x hx => hno x (List.mem_cons_of_mem _ hx))

theorem MarkError.annotate_eq (t : Trace) (packet : Option Packet) :
    MarkError.annotate t packet = (t, Outcome.returned) := by
  cases packet with
  | none => rfl
  | some p => simp [MarkError.annotate, MarkError.loop_stream]

theorem MarkError_empty_message (t : Trace) (code : Nat) (packet : Option Packet) :
    MarkError t code "" packet = ({ t with ErrorCode := code }, Outcome.returned) := by
  simp [MarkError, MarkError.annotate_eq]

theorem MarkError_nil_map (t : Trace) (code : Nat) (msg : String) (packet : Option Packet)
    (hmsg : msg ≠ "") (hnil : t.Results = none) :
    MarkError t code msg packet = ({ t with ErrorCode := code }, Outcome.panicked) := by
  simp [MarkError, hmsg, hnil]

theorem MarkError_message (t : Trace) (m : GoMap) (code : Nat) (msg : String)
    (packet : Option Packet) (hmsg : msg ≠ "") (hmap : t.Results = some m) :
    MarkError t code msg packet =
      ({ t with ErrorCode := code, Results := some (m.store "error" (Value.str msg)) },
        Outcome.returned) := by
  simp [MarkError, hmsg, hmap, MarkError.annotate_eq]

theorem MarkError_stream (t : Trace) (code : Nat) (msg : String) (packet : Option Packet) :
    (MarkError t code msg packet).1.Stream = t.Stream := by
  by_cases hmsg : msg = ""
  · subst hmsg
    rw [MarkError_empty_message]
  · cases hmap : t.Results with
    | none => rw [MarkError_nil_map t code msg packet hmsg hmap]
    | some m => rw [MarkError_message t m code msg packet hmsg hmap]

theorem tdiv_million (a : Int) :
    a.tdiv 1000000 = if 0 ≤ a then a / 1000000 else -((-a) / 1000000) := by
  split
  · next h => exact Int.tdiv_eq_ediv h (by decide)
  · next h =>
    have h1 : (0 : Int) ≤ -a := by omega
    have h2 := Int.tdiv_eq_ediv h1 (show (0 : Int) ≤ 1000000 by decide)
    rw [Int.neg_tdiv] at h2
    omega

/-- Go integer division by 1e6 is monotone. -/
theorem tdiv_million_mono (a b : Int) (h : a ≤ b) : a.tdiv 1000000 ≤ b.tdiv 1000000 := by
  rw [tdiv_million a, tdiv_million b]
  split <;> split <;> omega

/-- One firing through the hooks `AttachTo t` installed appends the prescribed
entry to the trace at `t`. -/
theorem AttachTo_fire_self (t : TraceRef) (conn : Connection) (f : Firing) (w : World) :
    (((AttachTo t conn).fire f w).traces t).Stream = (w.traces t).Stream ++ [f.entry] := by
  obtain ⟨kind, n, d, o⟩ := f
  cases kind <;>
    simp [Connection.fire, AttachTo, Firing.entry, sentPacket, receivedPacket]

/-- One firing through the hooks `AttachTo t` installed leaves every other
trace as it was. -/
theorem AttachTo_fire_other (t r : TraceRef) (conn : Connection) (f : Firing) (w : World)
    (hne : r ≠ t) : ((AttachTo t conn).fire f w).traces r = w.traces r := by
  obtain ⟨kind, n, d, o⟩ := f
  cases kind <;> simp [Connection.fire, AttachTo, Function.update, hne]

/-- A sequence of firings through the hooks `AttachTo t` installed appends the
prescribed entries, in order, to the trace at `t`. -/
theorem AttachTo_fireAll_self (t : TraceRef) (conn : Connection) (fs : List Firing) :
    ∀ w : World, (((AttachTo t conn).fireAll fs w).traces t).Stream
      = (w.traces t).Stream ++ fs.map Firing.entry := by
  induction fs with
  | nil => intro w; simp [Connection.fireAll]
  | cons f fs ih =>
    intro w
    rw [Connection.fireAll, ih, AttachTo_fire_self]
    simp

theorem Op.apply_stream (op : Op) (t : Trace) :
    ∃ suffix, (op.apply t).Stream = t.Stream ++ suffix ∧ (op.isHook = false → suffix = []) := by
  cases op with
  | sentHook n d o => exact ⟨_, rfl, by simp [Op.isHook]⟩
  | receivedHook n d o => exact ⟨_, rfl, by simp [Op.isHook]⟩
  | markError e m p => exact ⟨[], by simp [Op.apply, MarkError_stream], fun _ => rfl⟩
  | addPcap c e =>
    refine ⟨[], ?_, fun _ => rfl⟩
    cases e <;> simp [Op.apply, AddPcap]
  | complete conn => exact ⟨[], by simp [Op.apply, Complete], fun _ => rfl⟩

theorem GoMap.store_store_same (m : GoMap) (key : String) (v : Value) :
    (m.store key v).store key v = m.store key v := by
  induction m with
  | nil => simp [GoMap.store]
  | cons kv rest ih =>
    obtain ⟨k, w⟩ := kv
    by_cases hk : k = key
    · simp [GoMap.store, hk]
    · simp [GoMap.store, hk, ih]

/-- The range variable at an early return of the loop: the first element with
the key, flagged. -/
theorem MarkError.loop_variable (key : UnsafePointer) (stream rest : List TracePacket) :
    (MarkError.loop key stream rest).2
      = (rest.find? (fun e => decide (e.Pointer = key))).map
          (fun e => { e with IsOfInterest := true }) := by
  induction rest with
  | nil => rfl
  | cons e rest ih =>
    unfold MarkError.loop
    by_cases h : e.Pointer = key
    · simp [h]
    · simp [h, ih]

/-- On a non-nil map `MarkError` returns, having written `ErrorCode` and, for a
non-empty message, the `"error"` entry, and nothing else. -/
theorem MarkError_of_map (t : Trace) (m : GoMap) (code : Nat) (msg : String)
    (packet : Option Packet) (hmap : t.Results = some m) :
    MarkError t code msg packet =
      ({ t with ErrorCode := code,
                Results := some (if msg = "" then m else m.store "error" (Value.str msg)) },
        Outcome.returned) := by
  by_cases hmsg : msg = ""
  · subst hmsg
    rw [MarkError_empty_message]
    simp [hmap]
  · rw [MarkError_message t m code msg packet hmsg hmap]
    simp [hmsg]

/-- Whatever its arguments and outcome, `MarkError` leaves the secret fields as
they were. -/
theorem MarkError_secrets (t : Trace) (code : Nat) (msg : String) (packet : Option Packet) :
    (MarkError t code msg packet).1.secrets = t.secrets := by
  by_cases hmsg : msg = ""
  · subst hmsg
    rw [MarkError_empty_message]
    rfl
  · cases hmap : t.Results with
    | none =>
      rw [MarkError_nil_map t code msg packet hmsg hmap]
      rfl
    | some m =>
      rw [MarkError_message t m code msg packet hmsg hmap]
      rfl

theorem Op.apply_secrets (op : Op) (t : Trace) (hop : op.isComplete = false) :
    (op.apply t).secrets = t.secrets := by
  cases op with
  | sentHook n d o => rfl
  | receivedHook n d o => rfl
  | markError e m p => exact MarkError_secrets t e m p
  | addPcap c e => cases e <;> rfl
  | complete conn => simp [Op.isComplete] at hop

theorem Op.applyAll_secrets (ops : List Op) :
    ∀ t : Trace, (∀ op ∈ ops, op.isComplete = false) → (Op.applyAll ops t).secrets = t.secrets := by
  induction ops with
  | nil => intro t _; rfl
  | cons op ops ih =>
    intro t hops
    rw [Op.applyAll, ih (op.apply t) (fun o ho => hops o (List.mem_cons_of_mem _ ho)),
      Op.apply_secrets op t (hops op (List.mem_cons_self _ _))]

theorem GoMap.mem_keys_store (m : GoMap) (key k : String) (v : Value) :
    k ∈ (m.store key v).map Prod.fst ↔ k = key ∨ k ∈ m.map Prod.fst := by
  induction m with
  | nil => simp [GoMap.store]
  | cons kv rest ih =>
    obtain ⟨k0, w⟩ := kv
    by_cases hk : k0 = key
    · subst hk
      simp [GoMap.store]
    · simp only [GoMap.store, hk, if_false, List.map_cons, List.mem_cons, ih]
      tauto

theorem NewTrace_secrets (scenarioName : String) (scenarioVersion : Int) (host : String) (s : Int)
    (cmdOut : String) (err : Option GoError) (t : Trace)
    (hnew : NewTrace scenarioName scenarioVersion host s cmdOut err = some t) :
    t.secrets = ([], [], []) := by
  unfold NewTrace at hnew
  cases hgit : GitCommit cmdOut err with
  | none => simp [hgit] at hnew
  | some c =>
    simp [hgit] at hnew
    subst hnew
    rfl

/-! ## MarkError -/

/-- C1, the code at the two-packet scenario: the stream holds entry A then entry
B; the loop of `MarkError(2, "", packetWithKeyB)` stops at entry B with the
flag of its range variable set; the call returns; and both stream entries
still have `IsOfInterest = false`, so entry B is not marked. -/
theorem MarkError_two_keys_not_marked :
    twoKeyTrace.Stream.map TracePacket.Pointer = [keyA, keyB] ∧
    (MarkError.loop keyB twoKeyTrace.Stream twoKeyTrace.Stream).2.map TracePacket.IsOfInterest
      = some true ∧
    (MarkError twoKeyTrace 2 "" (some { Pointer := keyB })).2 = Outcome.returned ∧
    (MarkError twoKeyTrace 2 "" (some { Pointer := keyB })).1.Stream.map TracePacket.IsOfInterest
      = [false, false] := by
  decide

/-- C3: on a trace whose `Results` map is not nil, `MarkError(code, msg, nil)`
returns, sets `ErrorCode` to `code`, sets `Results["error"]` to `msg` when `msg`
is not empty and leaves `Results` as it was when `msg` is empty, and leaves the
stream, hence every `IsOfInterest`, as it was. -/
theorem MarkError_nil_packet (t : Trace) (m : GoMap) (code : Nat) (msg : String)
    (hmap : t.Results = some m) :
    (MarkError t code msg none).2 = Outcome.returned ∧
    (MarkError t code msg none).1.ErrorCode = code ∧
    (msg ≠ "" → (MarkError t code msg none).1.result "error" = some (Value.str msg)) ∧
    (msg = "" → (MarkError t code msg none).1.Results = t.Results) ∧
    (MarkError t code msg none).1.Stream.map TracePacket.IsOfInterest
      = t.Stream.map TracePacket.IsOfInterest ∧
    (MarkError t code msg none).1.Stream = t.Stream := by
  by_cases hmsg : msg = ""
  · subst hmsg
    rw [MarkError_empty_message]
    simp
  · rw [MarkError_message t m code msg none hmsg hmap]
    simp [hmsg, Trace.result, GoMap.lookup_store_self]

/-- C3 at the scenario of the specification: `MarkError(1, "timeout", nil)` on a
fresh trace gives `ErrorCode = 1`, `Results` holding only `"error": "timeout"`,
and an empty stream. -/
theorem MarkError_nil_packet_witness :
    freshTrace.Results = some [] ∧
    (MarkError freshTrace 1 "timeout" none).2 = Outcome.returned ∧
    (MarkError freshTrace 1 "timeout" none).1.ErrorCode = 1 ∧
    (MarkError freshTrace 1 "timeout" none).1.Results = some [("error", Value.str "timeout")] ∧
    (MarkError freshTrace 1 "timeout" none).1.Stream = [] :=
  ⟨rfl, (MarkError_nil_packet freshTrace [] 1 "timeout" rfl).1,
    (MarkError_nil_packet freshTrace [] 1 "timeout" rfl).2.1, by decide,
    (MarkError_nil_packet freshTrace [] 1 "timeout" rfl).2.2.2.2.2⟩

/-- C4 as stated fails on a trace whose `Results` map is nil: no entry of the
(empty) stream of the zero trace has the packet's key, and
`MarkError(1, "timeout", packet)` panics at the map write, with no message
recorded. -/
theorem MarkError_nil_map_panics :
    (∀ e ∈ Trace.zero.Stream, e.Pointer ≠ (Packet.mk keyA).Pointer) ∧
    (MarkError Trace.zero 1 "timeout" (some (Packet.mk keyA))).2 = Outcome.panicked ∧
    (MarkError Trace.zero 1 "timeout" (some (Packet.mk keyA))).1.result "error" = none := by
  decide

/-- C4, amended: when the `Results` map is not nil or `msg` is empty, and no
entry of the stream has the key of the non-nil packet `p`, `MarkError(code, msg,
p)` returns without panic, its scan ends without writing a flag, the stream is
as before, `ErrorCode` is `code`, and `Results["error"]` is `msg` when `msg` is
not empty. -/
theorem MarkError_no_match (t : Trace) (code : Nat) (msg : String) (p : Packet)
    (hmap : t.Results ≠ none ∨ msg = "")
    (hno : ∀ e ∈ t.Stream, e.Pointer ≠ p.Pointer) :
    (MarkError t code msg (some p)).2 = Outcome.returned ∧
    (MarkError.loop p.Pointer t.Stream t.Stream).2 = none ∧
    (MarkError t code msg (some p)).1.Stream = t.Stream ∧
    (MarkError t code msg (some p)).1.ErrorCode = code ∧
    (msg ≠ "" → (MarkError t code msg (some p)).1.result "error" = some (Value.str msg)) := by
  refine ⟨?_, MarkError.loop_no_match _ _ _ hno, MarkError_stream _ _ _ _, ?_, ?_⟩
  · by_cases hmsg : msg = ""
    · subst hmsg
      rw [MarkError_empty_message]
    · cases hres : t.Results with
      | none => cases hmap with
        | inl h => exact absurd hres h
        | inr h => exact absurd h hmsg
      | some m => rw [MarkError_message t m code msg _ hmsg hres]
  · by_cases hmsg : msg = ""
    · subst hmsg
      rw [MarkError_empty_message]
    · cases hres : t.Results with
      | none => rw [MarkError_nil_map t code msg _ hmsg hres]
      | some m => rw [MarkError_message t m code msg _ hmsg hres]
  · intro hmsg
    cases hres : t.Results with
    | none => cases hmap with
      | inl h => exact absurd hres h
      | inr h => exact absurd h hmsg
    | some m =>
      rw [MarkError_message t m code msg _ hmsg hres]
      simp [Trace.result, GoMap.lookup_store_self]

/-- C4, amended, at a concrete input: a packet with a key that the two-packet
trace does not hold, and a message. -/
theorem MarkError_no_match_witness :
    (twoKeyTrace.Results ≠ none ∨ "late" = "") ∧
    (∀ e ∈ twoKeyTrace.Stream, e.Pointer ≠ (Packet.mk 99).Pointer) ∧
    (MarkError twoKeyTrace 3 "late" (some (Packet.mk 99))).2 = Outcome.returned ∧
    (MarkError twoKeyTrace 3 "late" (some (Packet.mk 99))).1.Stream = twoKeyTrace.Stream ∧
    (MarkError twoKeyTrace 3 "late" (some (Packet.mk 99))).1.ErrorCode = 3 ∧
    (MarkError twoKeyTrace 3 "late" (some (Packet.mk 99))).1.result "error"
      = some (Value.str "late") :=
  have h := MarkError_no_match twoKeyTrace 3 "late" (Packet.mk 99) (by decide) (by decide)
  ⟨by decide, by decide, h.1, h.2.2.1, h.2.2.2.1, h.2.2.2.2 (by decide)⟩

/-! ## AddPcap -/

/-- C5: when `StopPcapCapture` returns bytes `b` and no error, `AddPcap` returns
no error and `Pcap` is `b`; when it returns error `e`, `AddPcap` returns `e` and
the trace, `Pcap` included, is as before. The stream is unchanged in both cases. -/
theorem AddPcap_outcomes (t : Trace) (b : Bytes) (e : GoError) :
    (AddPcap t b none).2 = none ∧
    (AddPcap t b none).1.Pcap = b ∧
    (AddPcap t b none).1.Stream = t.Stream ∧
    (AddPcap t b (some e)).2 = some e ∧
    (AddPcap t b (some e)).1.Pcap = t.Pcap ∧
    (AddPcap t b (some e)).1.Stream = t.Stream ∧
    (AddPcap t b (some e)).1 = t := by
  simp [AddPcap]

/-! ## AttachTo -/

/-- C2: after `AttachTo`, any sequence of firings of the two hooks leaves the
stream of the attached trace equal to the stream before followed by one entry
per firing, in firing order; the entry of a firing has direction `ToServer` for
the sent hook and `ToClient` for the received hook, the payload and key passed
in, and `IsOfInterest = false`. -/
theorem AttachTo_fireAll_stream (t : TraceRef) (conn : Connection) (fs : List Firing) (w : World) :
    (((AttachTo t conn).fireAll fs w).traces t).Stream = (w.traces t).Stream ++ fs.map Firing.entry ∧
    (((AttachTo t conn).fireAll fs w).traces t).Stream.length
      = (w.traces t).Stream.length + fs.length ∧
    (∀ f ∈ fs, f.entry.Direction = (if f.kind = HookKind.sent then ToServer else ToClient) ∧
      f.entry.Data = f.data ∧ f.entry.Pointer = f.origin ∧ f.entry.IsOfInterest = false) := by
  have hstream := AttachTo_fireAll_self t conn
  refine ⟨hstream fs w, ?_, ?_⟩
  · rw [hstream fs w]
    simp
  · intro f _
    obtain ⟨kind, n, d, o⟩ := f
    cases kind <;> simp [Firing.entry]

/-- C2 at the scenario of the specification: the firings S, R, S, R, S on a
fresh trace give five entries with directions to_server, to_client, to_server,
to_client, to_server. -/
theorem AttachTo_fireAll_stream_witness :
    (((AttachTo 0 (plainConnection [] [] [])).fireAll interleaved freshWorld).traces 0).Stream.map
        TracePacket.Direction
      = ["to_server", "to_client", "to_server", "to_client", "to_server"] := by
  rw [(AttachTo_fireAll_stream 0 (plainConnection [] [] []) interleaved freshWorld).1]
  decide

/-- C8: starting from an empty stream, if the clock readings of successive
firings never decrease, the timestamps of the resulting stream never decrease
in stream order. -/
theorem timestamps_nondecreasing (t : TraceRef) (conn : Connection) (fs : List Firing) (w : World)
    (hempty : (w.traces t).Stream = [])
    (hclock : List.Chain' (fun a b : Int => a ≤ b) (fs.map Firing.unixNano)) :
    List.Sorted (fun a b : Int => a ≤ b)
      ((((AttachTo t conn).fireAll fs w).traces t).Stream.map TracePacket.Timestamp) := by
  have hstream := AttachTo_fireAll_self t conn
  rw [hstream fs w, hempty]
  have hpair : List.Pairwise (fun a b : Int => a ≤ b) (fs.map Firing.unixNano) :=
    List.chain'_iff_pairwise.mp hclock
  have hmap : (([] : List TracePacket) ++ fs.map Firing.entry).map TracePacket.Timestamp
      = (fs.map Firing.unixNano).map (fun n : Int => n.tdiv 1000000) := by
    simp [List.map_map, Function.comp_def, Firing.entry]
  rw [hmap]
  exact List.Pairwise.map _ (fun a b hab => tdiv_million_mono a b hab) hpair

/-- C8 at a concrete input: the readings of the interleaving scenario never
decrease, and neither do the five timestamps. -/
theorem timestamps_nondecreasing_witness :
    (freshWorld.traces 0).Stream = [] ∧
    List.Chain' (fun a b : Int => a ≤ b) (interleaved.map Firing.unixNano) ∧
    List.Sorted (fun a b : Int => a ≤ b)
      ((((AttachTo 0 (plainConnection [] [] [])).fireAll interleaved freshWorld).traces 0).Stream.map
        TracePacket.Timestamp) :=
  ⟨rfl, by simp [interleaved],
    timestamps_nondecreasing 0 (plainConnection [] [] []) interleaved freshWorld rfl
      (by simp [interleaved])⟩

/-- C10: after `t1.AttachTo(c)` then `t2.AttachTo(c)`, a firing of either hook
of `c` appends exactly one entry to the stream of `t2`, also when `t1` and `t2`
are the same trace, and leaves the stream of `t1` as it was when they differ. -/
theorem AttachTo_twice_last_wins (t1 t2 : TraceRef) (conn : Connection) (f : Firing) (w : World) :
    (((AttachTo t2 (AttachTo t1 conn)).fire f w).traces t2).Stream
      = (w.traces t2).Stream ++ [f.entry] ∧
    (t1 ≠ t2 → (((AttachTo t2 (AttachTo t1 conn)).fire f w).traces t1).Stream
      = (w.traces t1).Stream) :=
  ⟨AttachTo_fire_self t2 (AttachTo t1 conn) f w,
    fun hne => by rw [AttachTo_fire_other t2 t1 (AttachTo t1 conn) f w hne]⟩

/-! ## Complete and NewTrace -/

/-- C6: after `Complete(conn)` the three secret fields of the trace are the
client random, exporter secret and TLS early exporter secret of the connection. -/
theorem Complete_secrets (t : Trace) (conn : Connection) :
    (Complete t conn).ClientRandom = conn.ClientRandom ∧
    (Complete t conn).ExporterSecret = conn.ExporterSecret ∧
    (Complete t conn).EarlyExporterSecret = conn.Tls.EarlyExporterSecret :=
  ⟨rfl, rfl, rfl⟩

/-- C7: when the version provider returns commit `c` and the clock epoch second
`s`, `NewTrace` returns a trace with the scenario name, version and host passed
in, `StartedAt = s`, `Commit = c`, an empty non-nil `Results`, and every other
field zero or empty. -/
theorem NewTrace_fields (scenarioName : String) (scenarioVersion : Int) (host : String) (s : Int)
    (cmdOut : String) (err : Option GoError) (c : String)
    (hgit : GitCommit cmdOut err = some c) :
    ∃ t, NewTrace scenarioName scenarioVersion host s cmdOut err = some t ∧
      t.Scenario = scenarioName ∧ t.ScenarioVersion = scenarioVersion ∧ t.Host = host ∧
      t.StartedAt = s ∧ t.Commit = c ∧ t.Results = some [] ∧
      t.Ip = "" ∧ t.Duration = 0 ∧ t.ErrorCode = 0 ∧ t.Stream = [] ∧
      t.Pcap = [] ∧ t.DecryptedPcap = [] ∧
      t.ClientRandom = [] ∧ t.ExporterSecret = [] ∧ t.EarlyExporterSecret = [] := by
  simp [NewTrace, hgit, Trace.zero]

/-- C7 at a concrete input: `git` prints the commit followed by a newline. -/
theorem NewTrace_fields_witness :
    GitCommit "abc123\n" none = some "abc123" ∧
    ∃ t, NewTrace "handshake" 1 "example.org" 1700000000 "abc123\n" none = some t ∧
      t.Scenario = "handshake" ∧ t.ScenarioVersion = 1 ∧ t.Host = "example.org" ∧
      t.StartedAt = 1700000000 ∧ t.Commit = "abc123" ∧ t.Results = some [] ∧
      t.Ip = "" ∧ t.Duration = 0 ∧ t.ErrorCode = 0 ∧ t.Stream = [] ∧
      t.Pcap = [] ∧ t.DecryptedPcap = [] ∧
      t.ClientRandom = [] ∧ t.ExporterSecret = [] ∧ t.EarlyExporterSecret = [] :=
  ⟨by decide,
    NewTrace_fields "handshake" 1 "example.org" 1700000000 "abc123\n" none "abc123" (by decide)⟩

/-! ## The stream is append-only -/

/-- C9: whatever the trace and the operation (a hook firing, `MarkError`,
`AddPcap`, `Complete`), the stream afterwards is at least as long as before,
each entry that existed keeps its direction, timestamp, data and key, and the
stream is longer only after a hook firing. -/
theorem Stream_append_only (op : Op) (t : Trace) :
    t.Stream.length ≤ (op.apply t).Stream.length ∧
    (∀ (i : Nat) (e : TracePacket), t.Stream[i]? = some e →
      ∃ e2, (op.apply t).Stream[i]? = some e2 ∧ e2.Direction = e.Direction ∧
        e2.Timestamp = e.Timestamp ∧ e2.Data = e.Data ∧ e2.Pointer = e.Pointer) ∧
    (t.Stream.length < (op.apply t).Stream.length → op.isHook = true) := by
  obtain ⟨suffix, happ, hsuffix⟩ := Op.apply_stream op t
  refine ⟨?_, ?_, ?_⟩
  · rw [happ]
    simp
  · intro i e hi
    refine ⟨e, ?_, rfl, rfl, rfl, rfl⟩
    have hlt : i < t.Stream.length := by
      rcases Nat.lt_or_ge i t.Stream.length with h | h
      · exact h
      · rw [List.getElem?_eq_none h] at hi
        cases hi
    rw [happ, List.getElem?_append_left hlt]
    exact hi
  · intro hlen
    cases hk : op.isHook with
    | true => rfl
    | false =>
      rw [happ, hsuffix hk] at hlen
      simp at hlen

/-! ## Secret fields -/

/-- C11: on a trace returned by `NewTrace`, after any sequence of hook firings,
`MarkError` calls and `AddPcap` calls (no `Complete`) the three secret fields
are empty; on any trace, each such operation leaves the three secret fields as
they were; and after `Complete`, any such sequence leaves them at the values
`Complete` stored. -/
theorem secrets_written_only_by_Complete (scenarioName : String) (scenarioVersion : Int)
    (host : String) (s : Int) (cmdOut : String) (err : Option GoError)
    (t0 t : Trace) (conn : Connection) (ops : List Op)
    (hnew : NewTrace scenarioName scenarioVersion host s cmdOut err = some t0)
    (hops : ∀ op ∈ ops, op.isComplete = false) :
    ((Op.applyAll ops t0).ClientRandom = [] ∧ (Op.applyAll ops t0).ExporterSecret = [] ∧
      (Op.applyAll ops t0).EarlyExporterSecret = []) ∧
    (∀ op : Op, op.isComplete = false →
      (op.apply t).ClientRandom = t.ClientRandom ∧ (op.apply t).ExporterSecret = t.ExporterSecret ∧
      (op.apply t).EarlyExporterSecret = t.EarlyExporterSecret) ∧
    ((Op.applyAll ops (Complete t conn)).ClientRandom = conn.ClientRandom ∧
      (Op.applyAll ops (Complete t conn)).ExporterSecret = conn.ExporterSecret ∧
      (Op.applyAll ops (Complete t conn)).EarlyExporterSecret = conn.Tls.EarlyExporterSecret) := by
  refine ⟨?_, ?_, ?_⟩
  · have h := Op.applyAll_secrets ops t0 hops
    rw [NewTrace_secrets scenarioName scenarioVersion host s cmdOut err t0 hnew] at h
    simpa [Trace.secrets] using h
  · intro op hop
    have h := Op.apply_secrets op t hop
    simpa [Trace.secrets] using h
  · have h := Op.applyAll_secrets ops (Complete t conn) hops
    simpa [Trace.secrets, Complete] using h

/-- C11 at a concrete run: a fresh trace, then two firings, a verdict and two
capture retrievals; and the same run after `Complete` stored three secrets. -/
theorem secrets_written_only_by_Complete_witness :
    NewTrace "handshake" 1 "example.org" 1700000000 "abc123\n" none = some freshTrace ∧
    (∀ op ∈ runWithoutComplete, op.isComplete = false) ∧
    (Op.applyAll runWithoutComplete freshTrace).secrets = ([], [], []) ∧
    (Op.applyAll runWithoutComplete (Complete twoKeyTrace (plainConnection [1] [2] [3]))).secrets
      = ([1], [2], [3]) :=
  have hops : ∀ op ∈ runWithoutComplete, op.isComplete = false := by
    simp [runWithoutComplete, Op.isComplete]
  have h := secrets_written_only_by_Complete "handshake" 1 "example.org" 1700000000 "abc123\n"
    none freshTrace twoKeyTrace (plainConnection [1] [2] [3]) runWithoutComplete (by decide) hops
  ⟨by decide, hops,
    by unfold Trace.secrets; rw [h.1.1, h.1.2.1, h.1.2.2],
    by unfold Trace.secrets; rw [h.2.2.1, h.2.2.2.1, h.2.2.2.2]; rfl⟩

/-! ## What MarkError leaves alone -/

/-- C13: on a trace whose `Results` map is not nil, `MarkError` with any code,
message and packet returns and leaves the stream equal to the stream before,
`IsOfInterest` of every entry included; when the packet's key has a first
matching entry, the loop ends with that entry, flagged, in its range variable
and with the stream as it was. -/
theorem MarkError_stream_untouched (t : Trace) (m : GoMap) (code : Nat) (msg : String)
    (packet : Option Packet) (hmap : t.Results = some m) :
    (MarkError t code msg packet).2 = Outcome.returned ∧
    (MarkError t code msg packet).1.Stream = t.Stream ∧
    (∀ (p : Packet) (e : TracePacket), packet = some p →
      t.Stream.find? (fun x => decide (x.Pointer = p.Pointer)) = some e →
      MarkError.loop p.Pointer t.Stream t.Stream
        = (t.Stream, some { e with IsOfInterest := true })) := by
  refine ⟨?_, ?_, ?_⟩
  · rw [MarkError_of_map t m code msg packet hmap]
  · rw [MarkError_of_map t m code msg packet hmap]
  · intro p e _ hfind
    have h1 := MarkError.loop_stream p.Pointer t.Stream t.Stream
    have h2 := MarkError.loop_variable p.Pointer t.Stream t.Stream
    rw [hfind] at h2
    exact Prod.ext h1 h2

/-- C13 at the two-packet scenario: `MarkError(2, "", packetWithKeyB)` leaves
the stream of two unflagged entries as it was. -/
theorem MarkError_stream_untouched_witness :
    twoKeyTrace.Results = some [] ∧
    (MarkError twoKeyTrace 2 "" (some { Pointer := keyB })).2 = Outcome.returned ∧
    (MarkError twoKeyTrace 2 "" (some { Pointer := keyB })).1.Stream = twoKeyTrace.Stream :=
  ⟨rfl, (MarkError_stream_untouched twoKeyTrace [] 2 "" (some { Pointer := keyB }) rfl).1,
    (MarkError_stream_untouched twoKeyTrace [] 2 "" (some { Pointer := keyB }) rfl).2.1⟩

/-- C14: for two successive calls `MarkError(c1, m1, p1)` then
`MarkError(c2, m2, p2)` on a trace whose `Results` map is not nil, both return;
`ErrorCode` ends as `c2`; `Results["error"]` ends as `m2` when `m2` is not
empty, and when `m2` is empty it keeps the value it had after the first call,
which is `m1` when `m1` is not empty; and a second call with the arguments of
the first changes nothing. -/
theorem MarkError_twice (t : Trace) (m : GoMap) (c1 c2 : Nat) (m1 m2 : String)
    (p1 p2 : Option Packet) (hmap : t.Results = some m) :
    (MarkError t c1 m1 p1).2 = Outcome.returned ∧
    (MarkError (MarkError t c1 m1 p1).1 c2 m2 p2).2 = Outcome.returned ∧
    (MarkError (MarkError t c1 m1 p1).1 c2 m2 p2).1.ErrorCode = c2 ∧
    (m2 ≠ "" →
      (MarkError (MarkError t c1 m1 p1).1 c2 m2 p2).1.result "error" = some (Value.str m2)) ∧
    (m2 = "" →
      (MarkError (MarkError t c1 m1 p1).1 c2 m2 p2).1.result "error"
        = (MarkError t c1 m1 p1).1.result "error") ∧
    (m2 = "" → m1 ≠ "" →
      (MarkError (MarkError t c1 m1 p1).1 c2 m2 p2).1.result "error" = some (Value.str m1)) ∧
    MarkError (MarkError t c1 m1 p1).1 c1 m1 p1 = MarkError t c1 m1 p1 := by
  have h1 := MarkError_of_map t m c1 m1 p1 hmap
  rw [h1]
  have h2 : ∀ (c : Nat) (msg : String) (p : Option Packet), _ :=
    fun c msg p => MarkError_of_map
      { t with ErrorCode := c1,
               Results := some (if m1 = "" then m else m.store "error" (Value.str m1)) }
      (if m1 = "" then m else m.store "error" (Value.str m1)) c msg p rfl
  refine ⟨rfl, ?_, ?_, ?_, ?_, ?_, ?_⟩
  · simp only [h2]
  · simp only [h2]
  · intro hm2
    simp only [h2]
    simp [Trace.result, hm2, GoMap.lookup_store_self]
  · intro hm2
    simp only [h2]
    simp [Trace.result, hm2]
  · intro hm2 hm1
    simp only [h2]
    simp [Trace.result, hm2, hm1, GoMap.lookup_store_self]
  · simp only [h2]
    by_cases hm1 : m1 = ""
    · simp [hm1]
    · simp [hm1, GoMap.store_store_same]

/-- C14 at a concrete input: a verdict with a message and a packet, then a
verdict with an empty message and no packet. -/
theorem MarkError_twice_witness :
    twoKeyTrace.Results = some [] ∧
    (MarkError (MarkError twoKeyTrace 1 "timeout" (some { Pointer := keyB })).1 2 "" none).1.ErrorCode
      = 2 ∧
    (MarkError (MarkError twoKeyTrace 1 "timeout" (some { Pointer := keyB })).1 2 "" none).1.result
      "error" = some (Value.str "timeout") ∧
    MarkError (MarkError twoKeyTrace 1 "timeout" (some { Pointer := keyB })).1 1 "timeout"
      (some { Pointer := keyB }) = MarkError twoKeyTrace 1 "timeout" (some { Pointer := keyB }) :=
  have h := MarkError_twice twoKeyTrace [] 1 2 "timeout" "" (some { Pointer := keyB }) none rfl
  ⟨rfl, h.2.2.1, h.2.2.2.2.2.1 rfl (by decide), h.2.2.2.2.2.2⟩

/-- C15: on a trace whose `Results` map is not nil, `MarkError` with any code,
message and packet leaves every key of `Results` other than `"error"` with the
value it had, adds or removes no key other than `"error"`, and leaves `Commit`,
`Scenario`, `ScenarioVersion`, `Host`, `Ip`, `StartedAt`, `Duration`, `Pcap`,
`DecryptedPcap`, `ClientRandom`, `ExporterSecret` and `EarlyExporterSecret` as
they were. -/
theorem MarkError_touches_only_verdict (t : Trace) (m : GoMap) (code : Nat) (msg : String)
    (packet : Option Packet) (hmap : t.Results = some m) :
    (∀ key : String, key ≠ "error" →
      (MarkError t code msg packet).1.result key = t.result key) ∧
    (∃ m2, (MarkError t code msg packet).1.Results = some m2 ∧
      ∀ key : String, key ≠ "error" → (key ∈ m2.map Prod.fst ↔ key ∈ m.map Prod.fst)) ∧
    (MarkError t code msg packet).1.Commit = t.Commit ∧
    (MarkError t code msg packet).1.Scenario = t.Scenario ∧
    (MarkError t code msg packet).1.ScenarioVersion = t.ScenarioVersion ∧
    (MarkError t code msg packet).1.Host = t.Host ∧
    (MarkError t code msg packet).1.Ip = t.Ip ∧
    (MarkError t code msg packet).1.StartedAt = t.StartedAt ∧
    (MarkError t code msg packet).1.Duration = t.Duration ∧
    (MarkError t code msg packet).1.Pcap = t.Pcap ∧
    (MarkError t code msg packet).1.DecryptedPcap = t.DecryptedPcap ∧
    (MarkError t code msg packet).1.ClientRandom = t.ClientRandom ∧
    (MarkError t code msg packet).1.ExporterSecret = t.ExporterSecret ∧
    (MarkError t code msg packet).1.EarlyExporterSecret = t.EarlyExporterSecret := by
  rw [MarkError_of_map t m code msg packet hmap]
  refine ⟨?_, ?_, rfl, rfl, rfl, rfl, rfl, rfl, rfl, rfl, rfl, rfl, rfl, rfl⟩
  · intro key hkey
    by_cases hmsg : msg = ""
    · simp [Trace.result, hmsg, hmap]
    · simp [Trace.result, hmsg, hmap, GoMap.lookup_store_other m "error" key _ hkey]
  · refine ⟨_, rfl, ?_⟩
    intro key hkey
    by_cases hmsg : msg = ""
    · rw [if_pos hmsg]
    · rw [if_neg hmsg, GoMap.mem_keys_store]
      exact ⟨fun h => h.resolve_left hkey, Or.inr⟩

/-- C15 at a concrete input: a trace that carries three results, a stored
capture and secrets; a verdict with a new message and a packet. -/
theorem MarkError_touches_only_verdict_witness :
    reportedTrace.Results
      = some [("rtt", Value.int 30), ("error", Value.str "old"), ("ok", Value.bool false)] ∧
    (MarkError reportedTrace 4 "new" (some { Pointer := keyA })).1.Results
      = some [("rtt", Value.int 30), ("error", Value.str "new"), ("ok", Value.bool false)] ∧
    (MarkError reportedTrace 4 "new" (some { Pointer := keyA })).1.result "rtt"
      = reportedTrace.result "rtt" ∧
    (MarkError reportedTrace 4 "new" (some { Pointer := keyA })).1.Pcap = reportedTrace.Pcap ∧
    (MarkError reportedTrace 4 "new" (some { Pointer := keyA })).1.ClientRandom
      = reportedTrace.ClientRandom :=
  have h := MarkError_touches_only_verdict reportedTrace _ 4 "new" (some { Pointer := keyA }) rfl
  ⟨rfl, by decide, h.1 "rtt" (by decide), h.2.2.2.2.2.2.2.2.2.1, h.2.2.2.2.2.2.2.2.2.2.2.1⟩

end QuicTracker
